import Mathlib

/-
Verification development for the cyan-socket repository.

The repository contains two variants of a socket.io direct-messaging relay:
  - src/index.js: a trie-backed presence directory (Trie of email characters,
    plus an emailToSocket Map), register / send_message / disconnect handlers,
    no authentication and no persistence;
  - src/unnamed/part_000: a jwt-authenticated variant with a connectedUsers
    Map (email -> { socketId, userId }) and mongoose persistence of
    Conversation and Message documents.

Both variants are shallowly embedded below.  JavaScript Maps and object
key-tables are modelled as association lists preserving insertion order
(Map.set keeps the position of an existing key; iteration is in insertion
order), mongoose collections as lists in insertion order (findOne returns
the first match, $all on an array field means "contains every listed
value"), and ObjectIds as consecutive Nat identifiers.
-/

set_option autoImplicit false

/-! ## Association-list maps (JavaScript Map / object key-table) -/

/-- Lookup in an insertion-ordered association list: first entry whose key
matches, like `Map.get` / `obj[key]`. -/
def aGet {κ β : Type} [DecidableEq κ] : List (κ × β) → κ → Option β
  | [], _ => none
  | (k, v) :: rest, key => if k = key then some v else aGet rest key

/-- Insert-or-replace, like `Map.set` / `obj[key] = v`: an existing key keeps
its position, a new key is appended at the end (JS insertion order). -/
def aSet {κ β : Type} [DecidableEq κ] : List (κ × β) → κ → β → List (κ × β)
  | [], key, val => [(key, val)]
  | (k, v) :: rest, key, val =>
    if k = key then (key, val) :: rest else (k, v) :: aSet rest key val

/-- Remove the entry for a key, like `Map.delete` / `delete obj[key]`. -/
def aDel {κ β : Type} [DecidableEq κ] : List (κ × β) → κ → List (κ × β)
  | [], _ => []
  | (k, v) :: rest, key =>
    if k = key then aDel rest key else (k, v) :: aDel rest key

@[simp]
theorem aGet_nil {κ β : Type} [DecidableEq κ] (k : κ) :
    aGet ([] : List (κ × β)) k = none := rfl

theorem aGet_aSet_self {κ β : Type} [DecidableEq κ] (m : List (κ × β)) (k : κ) (v : β) :
    aGet (aSet m k v) k = some v := by
  induction m with
  | nil => simp [aGet, aSet]
  | cons p rest ih =>
    obtain ⟨k0, v0⟩ := p
    by_cases h : k0 = k
    · simp [aGet, aSet, h]
    · simp [aGet, aSet, h, ih]

theorem aGet_aSet_ne {κ β : Type} [DecidableEq κ] (m : List (κ × β)) (k k' : κ) (v : β)
    (h : k ≠ k') : aGet (aSet m k v) k' = aGet m k' := by
  induction m with
  | nil => simp [aGet, aSet, h]
  | cons p rest ih =>
    obtain ⟨k0, v0⟩ := p
    by_cases h0 : k0 = k
    · subst h0; simp [aGet, aSet, h]
    · simp only [aSet, if_neg h0, aGet]
      by_cases h1 : k0 = k'
      · simp [h1]
      · simp [h1, ih]

theorem mem_aSet {κ β : Type} [DecidableEq κ] (m : List (κ × β)) (k : κ) (v : β)
    (p : κ × β) (h : p ∈ aSet m k v) : p = (k, v) ∨ p ∈ m := by
  induction m with
  | nil => simpa [aSet] using h
  | cons q rest ih =>
    obtain ⟨k0, v0⟩ := q
    by_cases h0 : k0 = k
    · rw [aSet, if_pos h0] at h
      rcases List.mem_cons.mp h with h | h
      · exact Or.inl h
      · exact Or.inr (List.mem_cons_of_mem _ h)
    · rw [aSet, if_neg h0] at h
      rcases List.mem_cons.mp h with h | h
      · exact Or.inr (by simp [h])
      · rcases ih h with h' | h'
        · exact Or.inl h'
        · exact Or.inr (List.mem_cons_of_mem _ h')

theorem mem_aDel {κ β : Type} [DecidableEq κ] (m : List (κ × β)) (k : κ) (p : κ × β) :
    p ∈ aDel m k ↔ p ∈ m ∧ p.1 ≠ k := by
  induction m with
  | nil => simp [aDel]
  | cons q rest ih =>
    obtain ⟨k0, v0⟩ := q
    by_cases h0 : k0 = k
    · rw [aDel, if_pos h0, ih]
      constructor
      · rintro ⟨h1, h2⟩; exact ⟨List.mem_cons_of_mem _ h1, h2⟩
      · rintro ⟨h1, h2⟩
        rcases List.mem_cons.mp h1 with h3 | h3
        · exact absurd (by rw [h3, h0]) h2
        · exact ⟨h3, h2⟩
    · rw [aDel, if_neg h0]
      constructor
      · intro h1
        rcases List.mem_cons.mp h1 with h3 | h3
        · exact ⟨by simp [h3], by rw [h3]; exact h0⟩
        · obtain ⟨h4, h5⟩ := ih.mp h3
          exact ⟨List.mem_cons_of_mem _ h4, h5⟩
      · rintro ⟨h1, h2⟩
        rcases List.mem_cons.mp h1 with h3 | h3
        · rw [h3]; exact List.mem_cons_self _ _
        · exact List.mem_cons_of_mem _ (ih.mpr ⟨h3, h2⟩)

theorem aGet_aDel_self {κ β : Type} [DecidableEq κ] (m : List (κ × β)) (k : κ) :
    aGet (aDel m k) k = none := by
  induction m with
  | nil => simp [aDel]
  | cons q rest ih =>
    obtain ⟨k0, v0⟩ := q
    by_cases h0 : k0 = k
    · rw [aDel, if_pos h0]; exact ih
    · rw [aDel, if_neg h0, aGet, if_neg h0]; exact ih

theorem aGet_aDel_ne {κ β : Type} [DecidableEq κ] (m : List (κ × β)) (k k' : κ)
    (h : k' ≠ k) : aGet (aDel m k) k' = aGet m k' := by
  induction m with
  | nil => simp [aDel]
  | cons q rest ih =>
    obtain ⟨k0, v0⟩ := q
    by_cases h0 : k0 = k
    · rw [aDel, if_pos h0, aGet, if_neg (by rw [h0]; exact fun hh => h hh.symm)]
      exact ih
    · rw [aDel, if_neg h0, aGet, aGet]
      by_cases h1 : k0 = k'
      · rw [if_pos h1, if_pos h1]
      · rw [if_neg h1, if_neg h1]; exact ih

theorem aDel_eq_nil_aGet {κ β : Type} [DecidableEq κ] (m : List (κ × β)) (k k' : κ)
    (hnil : aDel m k = []) (h : k' ≠ k) : aGet m k' = none := by
  induction m with
  | nil => rfl
  | cons q rest ih =>
    obtain ⟨k0, v0⟩ := q
    by_cases h0 : k0 = k
    · rw [aDel, if_pos h0] at hnil
      rw [aGet, if_neg (by rw [h0]; exact fun hh => h hh.symm)]
      exact ih hnil
    · rw [aDel, if_neg h0] at hnil
      exact absurd hnil (by simp)

/-! ## Trie (src/index.js, class TrieNode / class Trie)

Each `TrieNode` has a `children` key-table (char -> child node), an
`isEndOfWord` flag and a `socketId` payload, exactly as in the source.
The `Trie` class's methods walk the characters of the email string. -/

inductive TrieNode where
  | mk (children : List (Char × TrieNode)) (isEndOfWord : Bool) (socketId : Option String)

def TrieNode.children : TrieNode → List (Char × TrieNode)
  | .mk ch _ _ => ch

def TrieNode.isEndOfWord : TrieNode → Bool
  | .mk _ e _ => e

def TrieNode.socketId : TrieNode → Option String
  | .mk _ _ s => s

/-- A fresh node, `new TrieNode()`. -/
def emptyNode : TrieNode := .mk [] false none

/-- Recursion of `Trie.insert` over the characters of the email: missing
children are created, the terminal node gets `isEndOfWord = true` and the
socket id. -/
def insertAux (sid : String) : List Char → TrieNode → TrieNode
  | [], .mk ch _ _ => .mk ch true (some sid)
  | c :: cs, .mk ch e s =>
    let child := (aGet ch c).getD emptyNode
    .mk (aSet ch c (insertAux sid cs child)) e s

/-- Recursion of `Trie.search`: follow children; a missing child yields
`null`; at the end return the socket id only when `isEndOfWord`. -/
def searchAux : List Char → TrieNode → Option String
  | [], .mk _ e s => if e then s else none
  | c :: cs, .mk ch _ _ =>
    match aGet ch c with
    | none => none
    | some child => searchAux cs child

/-- Recursion of `removeHelper` inside `Trie.remove`.  Returns the mutated
node together with the helper's boolean result ("this node may be deleted
from its parent").  At full depth: if the node is not an end of word the
helper returns `false` with no mutation; otherwise the flag and socket id
are cleared and the helper reports whether the node has no children.  On the
way up: a `false` from the child keeps the (mutated) child; a `true` deletes
the child entry, and this node is deletable when it is no end of word and
has no remaining children. -/
def removeAux : List Char → TrieNode → TrieNode × Bool
  | [], .mk ch e s =>
    if e then (.mk ch false none, ch.isEmpty) else (.mk ch e s, false)
  | c :: cs, .mk ch e s =>
    match aGet ch c with
    | none => (.mk ch e s, false)
    | some child =>
      let r := removeAux cs child
      if r.2 then
        let ch2 := aDel ch c
        (.mk ch2 e s, !e && ch2.isEmpty)
      else
        (.mk (aSet ch c r.1) e s, false)

/-- `Trie.insert(email, socketId)`. -/
def Trie.insert (t : TrieNode) (email socketId : String) : TrieNode :=
  insertAux socketId email.data t

/-- `Trie.search(email)`. -/
def Trie.search (t : TrieNode) (email : String) : Option String :=
  searchAux email.data t

/-- `Trie.remove(email)`: run the helper at the root and discard its
boolean (the root itself is never deleted). -/
def Trie.remove (t : TrieNode) (email : String) : TrieNode :=
  (removeAux email.data t).1

/-! ### Trie lemmas -/

theorem search_empty (l : List Char) : searchAux l emptyNode = none := by
  cases l with
  | nil => rfl
  | cons c cs => rfl

theorem search_insert_self (l : List Char) (sid : String) (t : TrieNode) :
    searchAux l (insertAux sid l t) = some sid := by
  induction l generalizing t with
  | nil => obtain ⟨ch, e, s⟩ := t; simp [insertAux, searchAux]
  | cons c cs ih =>
    obtain ⟨ch, e, s⟩ := t
    simp only [insertAux, searchAux, aGet_aSet_self]
    exact ih _

theorem search_insert_ne (l l' : List Char) (sid : String) (t : TrieNode)
    (h : l ≠ l') : searchAux l' (insertAux sid l t) = searchAux l' t := by
  induction l generalizing t l' with
  | nil =>
    obtain ⟨ch, e, s⟩ := t
    cases l' with
    | nil => exact absurd rfl h
    | cons c' cs' => simp [insertAux, searchAux]
  | cons c cs ih =>
    obtain ⟨ch, e, s⟩ := t
    cases l' with
    | nil => simp [insertAux, searchAux]
    | cons c' cs' =>
      by_cases hc : c = c'
      · have hcs : cs ≠ cs' := fun hh => h (by rw [hc, hh])
        rw [← hc]
        simp only [insertAux, searchAux, aGet_aSet_self]
        rw [ih cs' _ hcs]
        cases hg : aGet ch c with
        | none => simp [search_empty]
        | some child => simp
      · simp only [insertAux, searchAux, aGet_aSet_ne _ _ _ _ hc]

theorem search_remove_self (l : List Char) (t : TrieNode) :
    searchAux l (removeAux l t).1 = none := by
  induction l generalizing t with
  | nil =>
    obtain ⟨ch, e, s⟩ := t
    by_cases he : e
    · simp [removeAux, he, searchAux]
    · simp [removeAux, he, searchAux]
  | cons c cs ih =>
    obtain ⟨ch, e, s⟩ := t
    simp only [removeAux]
    cases hg : aGet ch c with
    | none => simp [searchAux, hg]
    | some child =>
      simp only
      by_cases hr : (removeAux cs child).2
      · simp only [hr, if_true, searchAux, aGet_aDel_self]
      · simp only [hr, if_false, Bool.false_eq_true, searchAux, aGet_aSet_self]
        exact ih _

/-- Frame property of `removeHelper`: removing key `l` does not change the
search result for any other key `l'`, and whenever the helper reports a node
as deletable, no other key was bound below that node. -/
theorem remove_frame (l : List Char) (t : TrieNode) (l' : List Char) (h : l' ≠ l) :
    searchAux l' (removeAux l t).1 = searchAux l' t ∧
      ((removeAux l t).2 = true → searchAux l' t = none) := by
  induction l generalizing t l' with
  | nil =>
    obtain ⟨ch, e, s⟩ := t
    cases l' with
    | nil => exact absurd rfl h
    | cons c' cs' =>
      by_cases he : e
      · constructor
        · simp [removeAux, he, searchAux]
        · intro hp
          simp only [removeAux, he, if_true] at hp
          have hch : ch = [] := List.isEmpty_iff.mp hp
          simp [searchAux, hch]
      · simp [removeAux, he]
  | cons c cs ih =>
    obtain ⟨ch, e, s⟩ := t
    simp only [removeAux]
    cases hg : aGet ch c with
    | none => simp
    | some child =>
      simp only
      by_cases hr : (removeAux cs child).2
      · -- the child was pruned: children lose key c
        simp only [hr, if_true]
        constructor
        · cases l' with
          | nil => simp [searchAux]
          | cons c' cs' =>
            by_cases hc : c' = c
            · subst hc
              have hcs : cs' ≠ cs := fun hh => h (by rw [hh])
              simp only [searchAux, aGet_aDel_self, hg]
              exact ((ih child cs' hcs).2 hr).symm
            · simp only [searchAux, aGet_aDel_ne _ _ _ hc]
        · intro hp
          have he : e = false := by
            cases e
            · rfl
            · simp at hp
          have hnil : aDel ch c = [] := by
            subst he
            simp only [Bool.not_false, Bool.true_and] at hp
            exact List.isEmpty_iff.mp hp
          cases l' with
          | nil => simp [searchAux, he]
          | cons c' cs' =>
            by_cases hc : c' = c
            · subst hc
              have hcs : cs' ≠ cs := fun hh => h (by rw [hh])
              simp only [searchAux, hg]
              exact (ih child cs' hcs).2 hr
            · simp [searchAux, aDel_eq_nil_aGet ch c c' hnil hc]
      · -- the child stays (possibly mutated)
        simp only [hr, if_false, Bool.false_eq_true]
        constructor
        · cases l' with
          | nil => simp [searchAux]
          | cons c' cs' =>
            by_cases hc : c' = c
            · subst hc
              have hcs : cs' ≠ cs := fun hh => h (by rw [hh])
              simp only [searchAux, aGet_aSet_self, hg]
              exact (ih child cs' hcs).1
            · simp only [searchAux, aGet_aSet_ne _ _ _ _ (fun hh => hc hh.symm)]
        · intro hp
          exact absurd hp (by simp)

/-! ## src/index.js handlers

The trie variant keeps two structures: the `trie` and the `emailToSocket`
Map.  Its handlers are `register`, `send_message` and `disconnect`. -/

/-- Result of the trie variant's `send_message` handler: `error_message`
strings emitted back on the sender socket, and `receive_message` payloads
`(target socket, from, message)` emitted to the resolved socket.  In the
source the `from` field is `socket.id`. -/
structure SendResultI where
  senderEvents : List String
  recipientEvents : List (String × String × String)
deriving DecidableEq

/-- The `register` handler: unconditionally `trie.insert(email, socket.id)`
and `emailToSocket.set(email, socket.id)`.  No credential is received and no
verifier is consulted. -/
def registerI (t : TrieNode) (m : List (String × String)) (email sock : String) :
    TrieNode × List (String × String) :=
  (Trie.insert t email sock, aSet m email sock)

/-- The `send_message` handler: resolve `toEmail` in the trie; on a hit emit
`receive_message` with `from: socket.id`; on a miss emit `error_message` to
the sender. -/
def sendMessageI (t : TrieNode) (senderSock toEmail message : String) : SendResultI :=
  match Trie.search t toEmail with
  | some targetSocketId => ⟨[], [(targetSocketId, senderSock, message)]⟩
  | none => ⟨["❌ User " ++ toEmail ++ " not found or offline"], []⟩

/-- The `disconnect` handler: iterate `emailToSocket.entries()` in insertion
order, and for the FIRST entry whose value is this socket id, remove the
email from the trie, delete the map entry, and `break`. -/
def disconnectI (t : TrieNode) (m : List (String × String)) (sock : String) :
    TrieNode × List (String × String) :=
  match m.find? (fun p => p.2 == sock) with
  | none => (t, m)
  | some p => (Trie.remove t p.1, aDel m p.1)

/-- Events the trie variant's server reacts to.  Its `io.on("connection")`
block installs exactly the three handlers `register`, `send_message` and
`disconnect`; there is no authenticate event and no credential anywhere in
this variant's vocabulary. -/
inductive EventI where
  | register (sock email : String)
  | send (sock toEmail message : String)
  | disconnect (sock : String)

structure StateI where
  trie : TrieNode
  emailToSocket : List (String × String)

def stepI : StateI → EventI → StateI
  | st, .register sock email =>
    let r := registerI st.trie st.emailToSocket email sock
    ⟨r.1, r.2⟩
  | st, .send _ _ _ => st
  | st, .disconnect sock =>
    let r := disconnectI st.trie st.emailToSocket sock
    ⟨r.1, r.2⟩

/-- Run the trie variant's server from its initial state (empty trie, empty
map) over a list of transport events. -/
def runI (evs : List EventI) : StateI :=
  evs.foldl stepI ⟨emptyNode, []⟩

/-! ## src/unnamed/part_000: data model

Mongoose documents, the `connectedUsers` Map and the decoded jwt payload. -/

/-- Decoded token payload stored in `socket.user`: `{ id, email, role }`. -/
structure Identity where
  id : String
  email : String
  role : String
deriving DecidableEq

/-- A `connectedUsers` entry: `{ socketId, userId }`. -/
structure ConnInfo where
  socketId : String
  userId : String
deriving DecidableEq

/-- A `Conversation` document: ObjectId, `participants` array of user ids,
nullable `lastMessage` reference. -/
structure Conversation where
  cid : Nat
  participants : List String
  lastMessage : Option Nat
deriving DecidableEq

/-- A `Message` document: ObjectId, owning conversation, sender user id,
content. -/
structure Message where
  mid : Nat
  conversation : Nat
  sender : String
  content : String
deriving DecidableEq

/-- The mongo database: both collections in insertion order, plus the next
fresh ObjectId. -/
structure Store where
  conversations : List Conversation
  messages : List Message
  nextId : Nat
deriving DecidableEq

def emptyStore : Store := ⟨[], [], 0⟩

/-- Which of the four awaited persistence calls of the `send_message`
handler fail (promise rejection): `Conversation.findOne`,
`Conversation.create`, `Message.create`, `conversation.save`. -/
structure FailProfile where
  failFindConv : Bool
  failCreateConv : Bool
  failCreateMsg : Bool
  failSaveConv : Bool
deriving DecidableEq

def noFail : FailProfile := ⟨false, false, false, false⟩

inductive SendOutcome where
  | notAuthenticated
  | recipientOffline
  | persistenceFailure
  | delivered
deriving DecidableEq

/-- Result of the part_000 `send_message` handler: the database afterwards,
how the handler ended, the `error` payload strings emitted back on the
sender socket, and the `receive_message` payloads `(socket, from, content)`
emitted via `io.to(...)`.  A persistence failure rejects the handler's
promise: no event is emitted at all. -/
structure SendResult where
  store : Store
  outcome : SendOutcome
  senderEvents : List String
  recipientEvents : List (String × String × String)
deriving DecidableEq

/-- `Conversation.findOne({ participants: { $all: [a, b] } })`: the first
conversation whose participants array contains both ids. -/
def findConv (convs : List Conversation) (a b : String) : Option Conversation :=
  convs.find? (fun c => c.participants.contains a && c.participants.contains b)

/-- Steps 3-6 of the handler once a conversation is in hand:
`Message.create`, `conversation.lastMessage = message._id; conversation.save()`,
then `io.to(recipient.socketId).emit("receive_message", {from, content})`. -/
def finishSend (fp : FailProfile) (store : Store) (conv : Conversation)
    (u : Identity) (recipient : ConnInfo) (content : String) : SendResult :=
  if fp.failCreateMsg then ⟨store, .persistenceFailure, [], []⟩
  else
    let msg : Message := ⟨store.nextId, conv.cid, u.id, content⟩
    let store2 : Store := ⟨store.conversations, store.messages ++ [msg], store.nextId + 1⟩
    if fp.failSaveConv then ⟨store2, .persistenceFailure, [], []⟩
    else
      let store3 : Store :=
        ⟨store2.conversations.map
            (fun c => if c.cid = conv.cid then { c with lastMessage := some msg.mid } else c),
          store2.messages, store2.nextId⟩
      ⟨store3, .delivered, [], [(recipient.socketId, u.email, content)]⟩

/-- The part_000 `send_message` handler.  `sockUser` is `socket.user` (absent
until a successful `authenticate`); `dir` is the `connectedUsers` Map. -/
def sendMessageP (fp : FailProfile) (dir : List (String × ConnInfo)) (store : Store)
    (sockUser : Option Identity) (toEmail content : String) : SendResult :=
  match sockUser with
  | none => ⟨store, .notAuthenticated, ["You must authenticate first"], []⟩
  | some u =>
    match aGet dir toEmail with
    | none => ⟨store, .recipientOffline, ["Recipient not online"], []⟩
    | some recipient =>
      if fp.failFindConv then ⟨store, .persistenceFailure, [], []⟩
      else
        match findConv store.conversations u.id recipient.userId with
        | some conversation => finishSend fp store conversation u recipient content
        | none =>
          if fp.failCreateConv then ⟨store, .persistenceFailure, [], []⟩
          else
            let conversation : Conversation := ⟨store.nextId, [u.id, recipient.userId], none⟩
            let store1 : Store :=
              ⟨store.conversations ++ [conversation], store.messages, store.nextId + 1⟩
            finishSend fp store1 conversation u recipient content

/-- The part_000 `disconnect` handler: if `socket.user` is set, delete the
`connectedUsers` entry keyed by `socket.user.email` — unconditionally,
whichever socket that entry currently points to. -/
def disconnectP (dir : List (String × ConnInfo)) (sockUser : Option Identity) :
    List (String × ConnInfo) :=
  match sockUser with
  | none => dir
  | some u => aDel dir u.email

/-! ## src/unnamed/part_000: authenticate handler and server traces -/

/-- The `authenticate` handler, with `jwt.verify` abstracted as a function
`vf` from the token string to the decoded payload (`none` models a thrown
`JsonWebTokenError`).  On success: set `socket.user` and bind
`connectedUsers.set(decoded.email, { socketId, userId })`, emit
`auth_success`.  On failure: emit `auth_error`, mutate nothing. -/
def authenticateP (vf : String → Option Identity) (dir : List (String × ConnInfo))
    (sockUser : Option Identity) (sock token : String) :
    List (String × ConnInfo) × Option Identity :=
  match vf token with
  | none => (dir, sockUser)
  | some decoded => (aSet dir decoded.email ⟨sock, decoded.id⟩, some decoded)

/-- Transport events the part_000 server reacts to. -/
inductive EventP where
  | connect (sock : String)
  | auth (sock token : String)
  | send (sock toEmail content : String)
  | disconnect (sock : String)

/-- Whole-server state of the part_000 variant: each socket's
`socket.user`, the `connectedUsers` Map and the database. -/
structure StateP where
  users : List (String × Option Identity)
  dir : List (String × ConnInfo)
  store : Store

def stepP (vf : String → Option Identity) : StateP → EventP → StateP
  | st, .connect sock => { st with users := aSet st.users sock none }
  | st, .auth sock token =>
    let r := authenticateP vf st.dir ((aGet st.users sock).getD none) sock token
    { st with dir := r.1, users := aSet st.users sock r.2 }
  | st, .send sock toEmail content =>
    let su := (aGet st.users sock).getD none
    { st with store := (sendMessageP noFail st.dir st.store su toEmail content).store }
  | st, .disconnect sock =>
    let su := (aGet st.users sock).getD none
    { st with dir := disconnectP st.dir su }

def initP : StateP := ⟨[], [], emptyStore⟩

/-- Run the part_000 server from its initial state over a list of events. -/
def runP (vf : String → Option Identity) (evs : List EventP) : StateP :=
  evs.foldl (stepP vf) initP

/-- Every `connectedUsers` entry of a part_000 run is justified by a
successful verification: generalised over the start state for the
induction. -/
theorem dir_entry_justified (vf : String → Option Identity) (evs : List EventP)
    (s0 : StateP) (e : String) (ci : ConnInfo)
    (h : (e, ci) ∈ (evs.foldl (stepP vf) s0).dir) :
    (e, ci) ∈ s0.dir ∨
      ∃ tok u, EventP.auth ci.socketId tok ∈ evs ∧ vf tok = some u ∧
        u.email = e ∧ u.id = ci.userId := by
  induction evs generalizing s0 with
  | nil => exact Or.inl h
  | cons ev evs ih =>
    rcases ih (stepP vf s0 ev) h with hmem | ⟨tok, u, hin, hv, he, hid⟩
    · cases ev with
      | connect sock => exact Or.inl hmem
      | auth sock token =>
        simp only [stepP, authenticateP] at hmem
        cases hv : vf token with
        | none => rw [hv] at hmem; exact Or.inl hmem
        | some decoded =>
          rw [hv] at hmem
          rcases mem_aSet _ _ _ _ hmem with heq | hmem'
          · refine Or.inr ⟨token, decoded, ?_, hv, ?_, ?_⟩
            · have : ci = ⟨sock, decoded.id⟩ := congrArg Prod.snd heq
              rw [this]
              exact List.mem_cons_self _ _
            · exact (congrArg Prod.fst heq).symm
            · have : ci = ⟨sock, decoded.id⟩ := congrArg Prod.snd heq
              rw [this]
          · exact Or.inl hmem'
      | send sock toEmail content => exact Or.inl hmem
      | disconnect sock =>
        simp only [stepP, disconnectP] at hmem
        cases hsu : (aGet s0.users sock).getD none with
        | none => rw [hsu] at hmem; exact Or.inl hmem
        | some u =>
          rw [hsu] at hmem
          exact Or.inl ((mem_aDel _ _ _).mp hmem).1
    · exact Or.inr ⟨tok, u, List.mem_cons_of_mem _ hin, hv, he, hid⟩

/-! ## Conversation uniqueness machinery (claim C2) -/

/-- The `connectedUsers` Map once both identities are online. -/
def cuAB (emailA emailB sockA sockB idA idB : String) : List (String × ConnInfo) :=
  [(emailA, ⟨sockA, idA⟩), (emailB, ⟨sockB, idB⟩)]

/-- Invariant of the database while traffic is only between identities
`idA` and `idB`: either nothing exists yet, or exactly one conversation
containing both exists and every message references it. -/
def PairInv (idA idB : String) (st : Store) : Prop :=
  (st.conversations = [] ∧ st.messages = []) ∨
  (∃ c, st.conversations = [c] ∧ idA ∈ c.participants ∧ idB ∈ c.participants ∧
    ∀ m ∈ st.messages, m.conversation = c.cid)

theorem send_preserves_pair (idA idB : String) (dir : List (String × ConnInfo))
    (store : Store) (u : Identity) (r : ConnInfo) (toEmail content : String)
    (hget : aGet dir toEmail = some r)
    (hids : (u.id = idA ∧ r.userId = idB) ∨ (u.id = idB ∧ r.userId = idA))
    (hinv : PairInv idA idB store) :
    PairInv idA idB (sendMessageP noFail dir store (some u) toEmail content).store ∧
      (sendMessageP noFail dir store (some u) toEmail content).store.conversations.length = 1 := by
  rcases hinv with ⟨hconv, hmsg⟩ | ⟨c, hconv, hA, hB, hmsg⟩
  · -- empty database: the conversation is created
    have hfind : findConv [] u.id r.userId = none := rfl
    simp only [sendMessageP, hget, noFail, Bool.false_eq_true, if_false,
      finishSend, hconv, hmsg, hfind]
    constructor
    · refine Or.inr ⟨⟨store.nextId, [u.id, r.userId],
        some (store.nextId + 1)⟩, ?_, ?_, ?_, ?_⟩
      · simp
      · rcases hids with ⟨h1, h2⟩ | ⟨h1, h2⟩
        · rw [← h1]; exact List.mem_cons_self _ _
        · rw [← h2]; simp
      · rcases hids with ⟨h1, h2⟩ | ⟨h1, h2⟩
        · rw [← h2]; simp
        · rw [← h1]; exact List.mem_cons_self _ _
      · intro m hm
        simp at hm
        rw [hm]
    · simp
  · -- one conversation already: findOne returns it
    have hcontains : (c.participants.contains u.id && c.participants.contains r.userId) = true := by
      rcases hids with ⟨h1, h2⟩ | ⟨h1, h2⟩
      · rw [h1, h2]
        exact Bool.and_eq_true_iff.mpr
          ⟨List.elem_eq_true_of_mem hA, List.elem_eq_true_of_mem hB⟩
      · rw [h1, h2]
        exact Bool.and_eq_true_iff.mpr
          ⟨List.elem_eq_true_of_mem hB, List.elem_eq_true_of_mem hA⟩
    have hfind : findConv [c] u.id r.userId = some c := by
      rw [findConv]
      exact List.find?_cons_of_pos _ hcontains
    simp only [sendMessageP, hget, noFail, Bool.false_eq_true, if_false,
      finishSend, hconv, hfind]
    constructor
    · refine Or.inr ⟨{ c with lastMessage := some store.nextId }, ?_, hA, hB, ?_⟩
      · simp
      · intro m hm
        rcases List.mem_append.mp hm with hm' | hm'
        · exact hmsg m hm'
        · simp at hm'
          rw [hm']
    · simp

/-- One send between the pair: `d.1 = true` is A sending `d.2` to B,
`d.1 = false` is B sending `d.2` to A.  Both run the part_000 handler with
no persistence failure against the shared directory. -/
def pairStep (dir : List (String × ConnInfo)) (userA userB : Identity)
    (emailA emailB : String) (store : Store) (d : Bool × String) : Store :=
  if d.1 then (sendMessageP noFail dir store (some userA) emailB d.2).store
  else (sendMessageP noFail dir store (some userB) emailA d.2).store

/-- A whole session: both identities online, then any sequence of sends in
either direction starting from an empty database. -/
def runSends (dir : List (String × ConnInfo)) (userA userB : Identity)
    (emailA emailB : String) (sends : List (Bool × String)) : Store :=
  sends.foldl (pairStep dir userA userB emailA emailB) emptyStore

theorem pairStep_inv (idA idB : String) (dir : List (String × ConnInfo))
    (userA userB : Identity) (emailA emailB : String) (rA rB : ConnInfo)
    (hidA : userA.id = idA) (hidB : userB.id = idB)
    (hgetB : aGet dir emailB = some rB) (hrB : rB.userId = idB)
    (hgetA : aGet dir emailA = some rA) (hrA : rA.userId = idA)
    (store : Store) (d : Bool × String) (hinv : PairInv idA idB store) :
    PairInv idA idB (pairStep dir userA userB emailA emailB store d) ∧
      (pairStep dir userA userB emailA emailB store d).conversations.length = 1 := by
  rw [pairStep]
  by_cases hd : d.1
  · rw [if_pos hd]
    exact send_preserves_pair idA idB dir store userA rB emailB d.2 hgetB
      (Or.inl ⟨hidA, hrB⟩) hinv
  · rw [if_neg hd]
    exact send_preserves_pair idA idB dir store userB rA emailA d.2 hgetA
      (Or.inr ⟨hidB, hrA⟩) hinv

theorem runSends_inv (idA idB : String) (dir : List (String × ConnInfo))
    (userA userB : Identity) (emailA emailB : String) (rA rB : ConnInfo)
    (hidA : userA.id = idA) (hidB : userB.id = idB)
    (hgetB : aGet dir emailB = some rB) (hrB : rB.userId = idB)
    (hgetA : aGet dir emailA = some rA) (hrA : rA.userId = idA)
    (sends : List (Bool × String)) (store : Store) (hinv : PairInv idA idB store) :
    PairInv idA idB (sends.foldl (pairStep dir userA userB emailA emailB) store) ∧
      (sends ≠ [] →
        (sends.foldl (pairStep dir userA userB emailA emailB) store).conversations.length = 1) := by
  induction sends generalizing store with
  | nil => exact ⟨hinv, fun h => absurd rfl h⟩
  | cons d rest ih =>
    obtain ⟨hinv', hlen⟩ := pairStep_inv idA idB dir userA userB emailA emailB rA rB
      hidA hidB hgetB hrB hgetA hrA store d hinv
    obtain ⟨hfold, hfoldlen⟩ := ih _ hinv'
    refine ⟨hfold, fun _ => ?_⟩
    by_cases hrest : rest = []
    · rw [List.foldl_cons, hrest, List.foldl_nil]
      exact hlen
    · rw [List.foldl_cons]
      exact hfoldlen hrest

/-! ## Miscellaneous helper lemmas -/

theorem string_data_ne (a b : String) (h : a ≠ b) : a.data ≠ b.data := by
  intro hd
  apply h
  cases a
  cases b
  exact congrArg String.mk hd

theorem two_le_length_of_mem {α : Type} {a b : α} {l : List α}
    (ha : a ∈ l) (hb : b ∈ l) (hne : a ≠ b) : 2 ≤ l.length := by
  induction l with
  | nil => cases ha
  | cons x xs ih =>
    rcases List.mem_cons.mp ha with h1 | h1
    · rcases List.mem_cons.mp hb with h2 | h2
      · exact absurd (h1.trans h2.symm) hne
      · have : 1 ≤ xs.length := List.length_pos.mpr (List.ne_nil_of_mem h2)
        simp only [List.length_cons]
        omega
    · have : 1 ≤ xs.length := List.length_pos.mpr (List.ne_nil_of_mem h1)
      simp only [List.length_cons]
      omega

theorem key_unique {β : Type} (m : List (String × β)) (hnd : (m.map Prod.fst).Nodup)
    (p q : String × β) (hp : p ∈ m) (hq : q ∈ m) (hk : p.1 = q.1) : p = q := by
  induction m with
  | nil => cases hp
  | cons x xs ih =>
    rw [List.map_cons, List.nodup_cons] at hnd
    obtain ⟨hx, hnd'⟩ := hnd
    rcases List.mem_cons.mp hp with h1 | h1
    · rcases List.mem_cons.mp hq with h2 | h2
      · rw [h1, h2]
      · exfalso
        apply hx
        rw [h1] at hk
        rw [hk]
        exact List.mem_map_of_mem _ h2
    · rcases List.mem_cons.mp hq with h2 | h2
      · exfalso
        apply hx
        rw [h2] at hk
        rw [← hk]
        exact List.mem_map_of_mem _ h1
      · exact ih hnd' h1 h2

theorem search_foldl_ne (e' : String) (binds : List (String × String)) (acc : TrieNode)
    (h : ∀ p ∈ binds, p.1 ≠ e') :
    Trie.search (binds.foldl (fun a p => Trie.insert a p.1 p.2) acc) e' =
      Trie.search acc e' := by
  induction binds generalizing acc with
  | nil => rfl
  | cons b rest ih =>
    rw [List.foldl_cons, ih _ (fun p hp => h p (List.mem_cons_of_mem _ hp))]
    rw [Trie.search, Trie.search, Trie.insert]
    exact search_insert_ne _ _ _ _ (string_data_ne _ _ (h b (List.mem_cons_self _ _)))

theorem map_update_lastMessage (convs : List Conversation) (target : Nat) (lm : Option Nat) :
    (convs.map (fun c => if c.cid = target then { c with lastMessage := lm } else c)).map
        (fun c => (c.cid, c.participants)) =
      convs.map (fun c => (c.cid, c.participants)) := by
  induction convs with
  | nil => rfl
  | cons c rest ih =>
    by_cases h : c.cid = target
    · simp [h, ih]
    · simp [h, ih]

/-! ## Claims -/

/-- C8: for every email `e` and handle `s`, `lookup(e)` after `bind(e, s)`
returns `s`; a later bind for the same `e` replaces the earlier handle; and
`lookup(e')` for any `e'` that was never bound — including a proper prefix
or a proper extension of a bound email — returns absent. -/
theorem trie_bind_lookup_contract (t : TrieNode) (e s s' e' : String)
    (binds : List (String × String)) (h : ∀ p ∈ binds, p.1 ≠ e') :
    Trie.search (Trie.insert t e s) e = some s ∧
    Trie.search (Trie.insert (Trie.insert t e s') e s) e = some s ∧
    Trie.search (binds.foldl (fun a p => Trie.insert a p.1 p.2) emptyNode) e' = none := by
  refine ⟨?_, ?_, ?_⟩
  · rw [Trie.search, Trie.insert]
    exact search_insert_self _ _ _
  · rw [Trie.search, Trie.insert]
    exact search_insert_self _ _ _
  · rw [search_foldl_ne e' binds emptyNode h]
    exact search_empty _

/-- Witness for C8 at concrete inputs: "ab" is bound; "a" (a proper prefix)
and "abc" (a proper extension) were never bound and resolve to absent. -/
theorem trie_bind_lookup_contract_witness :
    ((∀ p ∈ [("ab", "s1")], p.1 ≠ "a") ∧
      (Trie.search (Trie.insert emptyNode "ab" "s1") "ab" = some "s1" ∧
       Trie.search (Trie.insert (Trie.insert emptyNode "ab" "s0") "ab" "s1") "ab" = some "s1" ∧
       Trie.search ([("ab", "s1")].foldl (fun a p => Trie.insert a p.1 p.2) emptyNode) "a" =
         none)) ∧
    ((∀ p ∈ [("ab", "s1")], p.1 ≠ "abc") ∧
      (Trie.search (Trie.insert emptyNode "ab" "s1") "ab" = some "s1" ∧
       Trie.search (Trie.insert (Trie.insert emptyNode "ab" "s0") "ab" "s1") "ab" = some "s1" ∧
       Trie.search ([("ab", "s1")].foldl (fun a p => Trie.insert a p.1 p.2) emptyNode) "abc" =
         none)) :=
  ⟨⟨by decide, trie_bind_lookup_contract emptyNode "ab" "s1" "s0" "a" [("ab", "s1")] (by decide)⟩,
   ⟨by decide, trie_bind_lookup_contract emptyNode "ab" "s1" "s0" "abc" [("ab", "s1")] (by decide)⟩⟩

/-- C9: for two distinct bound emails, `Trie.remove(e1)` leaves the entry
for `e2` intact (search still returns its socket id) while `search(e1)`
returns null afterwards — including when one email is a proper prefix of
the other. -/
theorem trie_remove_frame (t : TrieNode) (e1 e2 s1 s2 : String)
    (h1 : Trie.search t e1 = some s1) (h2 : Trie.search t e2 = some s2)
    (hne : e1 ≠ e2) :
    Trie.search (Trie.remove t e1) e2 = some s2 ∧
      Trie.search (Trie.remove t e1) e1 = none := by
  constructor
  · rw [Trie.search, Trie.remove]
    rw [(remove_frame e1.data t e2.data (string_data_ne e2 e1 (Ne.symm hne))).1]
    exact h2
  · rw [Trie.search, Trie.remove]
    exact search_remove_self _ _

/-- Witness for C9 with "ab" a proper prefix of "abcd": removing "abcd"
keeps "ab" bound, and vice-versa-style lookups behave as claimed. -/
theorem trie_remove_frame_witness :
    (Trie.search (Trie.insert (Trie.insert emptyNode "ab" "sX") "abcd" "sY") "abcd" =
        some "sY" ∧
      Trie.search (Trie.insert (Trie.insert emptyNode "ab" "sX") "abcd" "sY") "ab" =
        some "sX" ∧
      ("abcd" : String) ≠ "ab") ∧
    (Trie.search
        (Trie.remove (Trie.insert (Trie.insert emptyNode "ab" "sX") "abcd" "sY") "abcd")
        "ab" = some "sX" ∧
      Trie.search
        (Trie.remove (Trie.insert (Trie.insert emptyNode "ab" "sX") "abcd" "sY") "abcd")
        "abcd" = none) :=
  ⟨⟨by decide, by decide, by decide⟩,
    trie_remove_frame (Trie.insert (Trie.insert emptyNode "ab" "sX") "abcd" "sY")
      "abcd" "ab" "sY" "sX" (by decide) (by decide) (by decide)⟩

/-- C1 (code bug in part_000): the directory maps `a@x.com` to the newer
handle `s2`; the older connection — whose `socket.user` is still
`{id: u1, email: a@x.com}` — disconnects; part_000's handler deletes the
entry keyed by `socket.user.email` unconditionally, so the live `s2`
binding is removed and lookup comes back absent, where the claim requires
the entry to be left unchanged.  (The trie variant's disconnect does guard
on `id === socket.id`: in the same scenario it removes nothing.) -/
theorem disconnect_stale_removal_bug :
    aGet [("a@x.com", ConnInfo.mk "s2" "u1")] "a@x.com" = some ⟨"s2", "u1"⟩ ∧
    disconnectP [("a@x.com", ⟨"s2", "u1"⟩)] (some ⟨"u1", "a@x.com", "user"⟩) = [] ∧
    aGet (disconnectP [("a@x.com", ⟨"s2", "u1"⟩)] (some ⟨"u1", "a@x.com", "user"⟩))
        "a@x.com" = none ∧
    (disconnectI emptyNode [("a@x.com", "s2")] "s1").2 = [("a@x.com", "s2")] := by
  decide

/-- C4: a send whose recipient has no directory entry fails with the
recipient-offline error emitted to the sender and leaves the store exactly
unchanged, whatever the persistence layer would have done; the trie
variant's handler likewise only emits `error_message` to the sender. -/
theorem send_recipient_offline_no_persistence
    (fp : FailProfile) (dir : List (String × ConnInfo)) (store : Store)
    (u : Identity) (toEmail content : String)
    (t : TrieNode) (senderSock message : String)
    (hoff : aGet dir toEmail = none) (htoff : Trie.search t toEmail = none) :
    (sendMessageP fp dir store (some u) toEmail content).store = store ∧
    (sendMessageP fp dir store (some u) toEmail content).outcome = .recipientOffline ∧
    (sendMessageP fp dir store (some u) toEmail content).senderEvents =
      ["Recipient not online"] ∧
    (sendMessageP fp dir store (some u) toEmail content).recipientEvents = [] ∧
    sendMessageI t senderSock toEmail message =
      ⟨["❌ User " ++ toEmail ++ " not found or offline"], []⟩ := by
  refine ⟨?_, ?_, ?_, ?_, ?_⟩ <;> simp [sendMessageP, hoff, sendMessageI, htoff]

/-- Witness for C4: `a@x.com` (authenticated) sends to `ghost@x.com` which
has no presence entry; the database is untouched. -/
theorem send_recipient_offline_no_persistence_witness :
    (aGet [("b@x.com", ConnInfo.mk "sB" "uB")] "ghost@x.com" = none ∧
      Trie.search (Trie.insert emptyNode "b@x.com" "sB") "ghost@x.com" = none) ∧
    ((sendMessageP noFail [("b@x.com", ⟨"sB", "uB"⟩)] emptyStore
        (some ⟨"uA", "a@x.com", "user"⟩) "ghost@x.com" "hi").store = emptyStore ∧
      (sendMessageP noFail [("b@x.com", ⟨"sB", "uB"⟩)] emptyStore
        (some ⟨"uA", "a@x.com", "user"⟩) "ghost@x.com" "hi").outcome = .recipientOffline ∧
      (sendMessageP noFail [("b@x.com", ⟨"sB", "uB"⟩)] emptyStore
        (some ⟨"uA", "a@x.com", "user"⟩) "ghost@x.com" "hi").senderEvents =
        ["Recipient not online"] ∧
      (sendMessageP noFail [("b@x.com", ⟨"sB", "uB"⟩)] emptyStore
        (some ⟨"uA", "a@x.com", "user"⟩) "ghost@x.com" "hi").recipientEvents = [] ∧
      sendMessageI (Trie.insert emptyNode "b@x.com" "sB") "sA" "ghost@x.com" "hi" =
        ⟨["❌ User " ++ "ghost@x.com" ++ " not found or offline"], []⟩) :=
  ⟨⟨by decide, by decide⟩,
    send_recipient_offline_no_persistence noFail [("b@x.com", ⟨"sB", "uB"⟩)] emptyStore
      ⟨"uA", "a@x.com", "user"⟩ "ghost@x.com" "hi"
      (Trie.insert emptyNode "b@x.com" "sB") "sA" "hi" (by decide) (by decide)⟩

/-- C3 counterexample: when `Conversation.findOne` rejects, the handler's
promise rejects with no catch: the outcome is a persistence failure, yet
the sender receives no rejection signal at all (`senderEvents = []`),
contradicting the claim that a PersistenceError-kind signal reaches the
originating connection. -/
theorem send_persistence_failure_silent_cex :
    (sendMessageP ⟨true, false, false, false⟩ [("b@x.com", ⟨"sB", "uB"⟩)] emptyStore
        (some ⟨"uA", "a@x.com", "user"⟩) "b@x.com" "hi").outcome = .persistenceFailure ∧
    (sendMessageP ⟨true, false, false, false⟩ [("b@x.com", ⟨"sB", "uB"⟩)] emptyStore
        (some ⟨"uA", "a@x.com", "user"⟩) "b@x.com" "hi").senderEvents = [] ∧
    (sendMessageP ⟨true, false, false, false⟩ [("b@x.com", ⟨"sB", "uB"⟩)] emptyStore
        (some ⟨"uA", "a@x.com", "user"⟩) "b@x.com" "hi").recipientEvents = [] := by
  decide

/-- C3 amended: if any persistence step of an authenticated send fails,
nothing is emitted to the recipient — delivery indeed happens only after
persistence succeeds — but nothing is emitted to the sender either: the
failure is silent on the originating connection (the promise rejection is
unhandled). -/
theorem send_persistence_failure_no_emits
    (fp : FailProfile) (dir : List (String × ConnInfo)) (store : Store)
    (u : Identity) (toEmail content : String)
    (h : (sendMessageP fp dir store (some u) toEmail content).outcome =
      .persistenceFailure) :
    (sendMessageP fp dir store (some u) toEmail content).recipientEvents = [] ∧
    (sendMessageP fp dir store (some u) toEmail content).senderEvents = [] := by
  cases hm : aGet dir toEmail with
  | none => simp [sendMessageP, hm] at h
  | some r =>
    cases hf : fp.failFindConv with
    | true => simp [sendMessageP, hm, hf]
    | false =>
      cases hc : findConv store.conversations u.id r.userId with
      | some conversation =>
        cases hcm : fp.failCreateMsg with
        | true => simp [sendMessageP, finishSend, hm, hf, hc, hcm]
        | false =>
          cases hs : fp.failSaveConv with
          | true => simp [sendMessageP, finishSend, hm, hf, hc, hcm, hs]
          | false => simp [sendMessageP, finishSend, hm, hf, hc, hcm, hs] at h
      | none =>
        cases hcc : fp.failCreateConv with
        | true => simp [sendMessageP, hm, hf, hc, hcc]
        | false =>
          cases hcm : fp.failCreateMsg with
          | true => simp [sendMessageP, finishSend, hm, hf, hc, hcc, hcm]
          | false =>
            cases hs : fp.failSaveConv with
            | true => simp [sendMessageP, finishSend, hm, hf, hc, hcc, hcm, hs]
            | false => simp [sendMessageP, finishSend, hm, hf, hc, hcc, hcm, hs] at h

/-- Witness for the amended C3: a failing `Message.create` after the
conversation was found yields a persistence failure with no emission on
either side. -/
theorem send_persistence_failure_no_emits_witness :
    ((sendMessageP ⟨false, false, true, false⟩ [("b@x.com", ⟨"sB", "uB"⟩)]
        ⟨[⟨0, ["uA", "uB"], none⟩], [], 1⟩
        (some ⟨"uA", "a@x.com", "user"⟩) "b@x.com" "hi").outcome =
      .persistenceFailure) ∧
    ((sendMessageP ⟨false, false, true, false⟩ [("b@x.com", ⟨"sB", "uB"⟩)]
        ⟨[⟨0, ["uA", "uB"], none⟩], [], 1⟩
        (some ⟨"uA", "a@x.com", "user"⟩) "b@x.com" "hi").recipientEvents = [] ∧
      (sendMessageP ⟨false, false, true, false⟩ [("b@x.com", ⟨"sB", "uB"⟩)]
        ⟨[⟨0, ["uA", "uB"], none⟩], [], 1⟩
        (some ⟨"uA", "a@x.com", "user"⟩) "b@x.com" "hi").senderEvents = []) :=
  ⟨by decide,
    send_persistence_failure_no_emits ⟨false, false, true, false⟩
      [("b@x.com", ⟨"sB", "uB"⟩)] ⟨[⟨0, ["uA", "uB"], none⟩], [], 1⟩
      ⟨"uA", "a@x.com", "user"⟩ "b@x.com" "hi" (by decide)⟩

/-- C6 counterexample (trie variant): socket `sA` registered as `a@x.com`,
`sB` as `b@x.com`; `sA` sends to `b@x.com`.  The recipient receives the
payload with `from: "sA"` — the sender's socket id — which is not the
sender's public identity `a@x.com`. -/
theorem receive_message_from_socket_id_cex :
    sendMessageI (Trie.insert (Trie.insert emptyNode "a@x.com" "sA") "b@x.com" "sB")
        "sA" "b@x.com" "hi" = ⟨[], [("sB", "sA", "hi")]⟩ ∧
    Trie.search (Trie.insert (Trie.insert emptyNode "a@x.com" "sA") "b@x.com" "sB")
        "a@x.com" = some "sA" ∧
    ("sA" : String) ≠ "a@x.com" := by
  decide

/-- C6 amended: on a successful send the part_000 variant delivers
`{from: sender's email, content}` to the recipient's socket, while the
trie variant delivers `{from: sender's socket id, message}` — its `from`
field is the connection id, not the public identity. -/
theorem receive_message_payload
    (dir : List (String × ConnInfo)) (store : Store) (u : Identity)
    (toEmail content : String) (r : ConnInfo)
    (t : TrieNode) (senderSock message target : String)
    (hget : aGet dir toEmail = some r)
    (hfind : Trie.search t toEmail = some target) :
    (sendMessageP noFail dir store (some u) toEmail content).recipientEvents =
      [(r.socketId, u.email, content)] ∧
    sendMessageI t senderSock toEmail message = ⟨[], [(target, senderSock, message)]⟩ := by
  constructor
  · cases hc : findConv store.conversations u.id r.userId with
    | some conversation => simp [sendMessageP, finishSend, hget, noFail, hc]
    | none => simp [sendMessageP, finishSend, hget, noFail, hc]
  · simp [sendMessageI, hfind]

/-- Witness for the amended C6: concrete delivery on both variants. -/
theorem receive_message_payload_witness :
    (aGet [("b@x.com", ConnInfo.mk "sB" "uB")] "b@x.com" = some ⟨"sB", "uB"⟩ ∧
      Trie.search (Trie.insert emptyNode "b@x.com" "sB") "b@x.com" = some "sB") ∧
    ((sendMessageP noFail [("b@x.com", ⟨"sB", "uB"⟩)] emptyStore
        (some ⟨"uA", "a@x.com", "user"⟩) "b@x.com" "hi").recipientEvents =
        [("sB", "a@x.com", "hi")] ∧
      sendMessageI (Trie.insert emptyNode "b@x.com" "sB") "sA" "b@x.com" "hi" =
        ⟨[], [("sB", "sA", "hi")]⟩) :=
  ⟨⟨by decide, by decide⟩,
    receive_message_payload [("b@x.com", ⟨"sB", "uB"⟩)] emptyStore
      ⟨"uA", "a@x.com", "user"⟩ "b@x.com" "hi" ⟨"sB", "uB"⟩
      (Trie.insert emptyNode "b@x.com" "sB") "sA" "hi" "sB" (by decide) (by decide)⟩

/-- C5 counterexample: one connection `s1` registers two identities
(`e1@x.com` then `e2@x.com`) in the trie variant.  On disconnect the
handler removes only the first matching entry and `break`s, so the
directory (both the Map and the trie) still maps `e2@x.com` to the closed
connection `s1` — a stale entry the claim forbids. -/
theorem disconnect_leaves_stale_entry_cex :
    (disconnectI
        (Trie.insert (Trie.insert emptyNode "e1@x.com" "s1") "e2@x.com" "s1")
        [("e1@x.com", "s1"), ("e2@x.com", "s1")] "s1").2 = [("e2@x.com", "s1")] ∧
    Trie.search
        (disconnectI
          (Trie.insert (Trie.insert emptyNode "e1@x.com" "s1") "e2@x.com" "s1")
          [("e1@x.com", "s1"), ("e2@x.com", "s1")] "s1").1 "e2@x.com" = some "s1" ∧
    aGet
        (disconnectI
          (Trie.insert (Trie.insert emptyNode "e1@x.com" "s1") "e2@x.com" "s1")
          [("e1@x.com", "s1"), ("e2@x.com", "s1")] "s1").2 "e1@x.com" = none := by
  decide

/-- C5 amended: the trie variant's disconnect removes at most one directory
entry — the earliest-registered one bound to the closing socket.  When the
closing connection holds at most one binding (the single-identity case),
no entry bound to it remains afterwards, and every entry of another
connection survives untouched; but a connection that registered several
identities leaves all but its first binding behind as stale entries. -/
theorem disconnect_single_binding_clean
    (t : TrieNode) (m : List (String × String)) (sock : String)
    (hnd : (m.map Prod.fst).Nodup)
    (hcount : (m.filter (fun p => p.2 == sock)).length ≤ 1) :
    (∀ p ∈ (disconnectI t m sock).2, p.2 ≠ sock) ∧
    (∀ p ∈ m, p.2 ≠ sock → p ∈ (disconnectI t m sock).2) := by
  cases hf : m.find? (fun p => p.2 == sock) with
  | none =>
    rw [disconnectI, hf]
    constructor
    · intro p hp hps
      have := List.find?_eq_none.mp hf p hp
      simp [hps] at this
    · intro p hp _
      exact hp
  | some q =>
    have hq2 : q.2 = sock := by
      have := List.find?_some hf
      simpa using this
    have hqm : q ∈ m := List.mem_of_find?_eq_some hf
    rw [disconnectI, hf]
    constructor
    · intro p hp hps
      obtain ⟨hpm, hpk⟩ := (mem_aDel m q.1 p).mp hp
      have hpq : p ≠ q := fun hh => hpk (by rw [hh])
      have hpf : p ∈ m.filter (fun p => p.2 == sock) := by
        rw [List.mem_filter]
        exact ⟨hpm, by simp [hps]⟩
      have hqf : q ∈ m.filter (fun p => p.2 == sock) := by
        rw [List.mem_filter]
        exact ⟨hqm, by simp [hq2]⟩
      have := two_le_length_of_mem hpf hqf hpq
      omega
    · intro p hp hps
      have hpk : p.1 ≠ q.1 := by
        intro hk
        have := key_unique m hnd p q hp hqm hk
        rw [this] at hps
        exact hps hq2
      exact (mem_aDel m q.1 p).mpr ⟨hp, hpk⟩

/-- Witness for the amended C5: `s1` holds a single binding; after its
disconnect no entry points at `s1` and the entry of `s2` survives. -/
theorem disconnect_single_binding_clean_witness :
    (([("a@x.com", "s1"), ("b@x.com", "s2")].map Prod.fst).Nodup ∧
      ([("a@x.com", "s1"), ("b@x.com", "s2")].filter
        (fun p => p.2 == "s1")).length ≤ 1) ∧
    ((∀ p ∈ (disconnectI emptyNode [("a@x.com", "s1"), ("b@x.com", "s2")] "s1").2,
        p.2 ≠ "s1") ∧
      (∀ p ∈ [("a@x.com", "s1"), ("b@x.com", "s2")], p.2 ≠ "s1" →
        p ∈ (disconnectI emptyNode [("a@x.com", "s1"), ("b@x.com", "s2")] "s1").2)) :=
  ⟨⟨by decide, by decide⟩,
    disconnect_single_binding_clean emptyNode [("a@x.com", "s1"), ("b@x.com", "s2")]
      "s1" (by decide) (by decide)⟩

/-- C7 counterexample (trie variant): the `register` handler binds the
client-supplied email to the socket with no credential and no verifier —
the variant's event vocabulary (`register`, `send_message`, `disconnect`)
contains no authentication at all — yet after this one event the directory
holds an entry for `a@x.com`. -/
theorem register_without_verification_cex :
    aGet (runI [EventI.register "s1" "a@x.com"]).emailToSocket "a@x.com" = some "s1" ∧
    Trie.search (runI [EventI.register "s1" "a@x.com"]).trie "a@x.com" = some "s1" := by
  decide

/-- C7 amended: in the part_000 variant every `connectedUsers` entry of any
reachable state is justified by an earlier `authenticate` event on the very
socket the entry points to whose token verified to that identity; in the
trie variant, `register` binds unconditionally — no verification guards the
directory. -/
theorem directory_entry_requires_verification
    (vf : String → Option Identity) (evs : List EventP) (e : String) (ci : ConnInfo)
    (st : StateI) (sock email : String)
    (h : (e, ci) ∈ (runP vf evs).dir) :
    (∃ tok u, EventP.auth ci.socketId tok ∈ evs ∧ vf tok = some u ∧
      u.email = e ∧ u.id = ci.userId) ∧
    aGet (stepI st (EventI.register sock email)).emailToSocket email = some sock := by
  constructor
  · rcases dir_entry_justified vf evs initP e ci h with hmem | hj
    · exact absurd hmem (by simp [initP])
    · exact hj
  · simp [stepI, registerI, aGet_aSet_self]

/-- Concrete verifier for the C7 witness: only "tok1" verifies. -/
def vfW : String → Option Identity :=
  fun tok => if tok = "tok1" then some ⟨"u1", "a@x.com", "user"⟩ else none

/-- Witness for the amended C7 at a concrete trace. -/
theorem directory_entry_requires_verification_witness :
    (("a@x.com", ConnInfo.mk "s1" "u1") ∈
      (runP vfW [EventP.connect "s1", EventP.auth "s1" "tok1"]).dir) ∧
    ((∃ tok u, EventP.auth "s1" tok ∈ [EventP.connect "s1", EventP.auth "s1" "tok1"] ∧
        vfW tok = some u ∧ u.email = "a@x.com" ∧ u.id = "u1") ∧
      aGet (stepI ⟨emptyNode, []⟩ (EventI.register "s9" "c@x.com")).emailToSocket
        "c@x.com" = some "s9") :=
  ⟨by decide,
    directory_entry_requires_verification vfW
      [EventP.connect "s1", EventP.auth "s1" "tok1"] "a@x.com" ⟨"s1", "u1"⟩
      ⟨emptyNode, []⟩ "s9" "c@x.com" (by decide)⟩

/-- C2: with identities A and B both online, any sequence of successful
sends between them (in either direction, starting from an empty database)
leaves at most one Conversation — exactly one as soon as a message was
sent — and every Message references that one conversation: the
find-or-create step never duplicates the pair's conversation. -/
theorem conversation_unique_per_pair
    (idA idB emailA emailB sockA sockB roleA roleB : String)
    (sends : List (Bool × String)) (hne : emailA ≠ emailB) :
    (runSends (cuAB emailA emailB sockA sockB idA idB) ⟨idA, emailA, roleA⟩
        ⟨idB, emailB, roleB⟩ emailA emailB sends).conversations.length ≤ 1 ∧
    (sends ≠ [] →
      (runSends (cuAB emailA emailB sockA sockB idA idB) ⟨idA, emailA, roleA⟩
        ⟨idB, emailB, roleB⟩ emailA emailB sends).conversations.length = 1) ∧
    (∀ m ∈ (runSends (cuAB emailA emailB sockA sockB idA idB) ⟨idA, emailA, roleA⟩
        ⟨idB, emailB, roleB⟩ emailA emailB sends).messages,
      ∀ c ∈ (runSends (cuAB emailA emailB sockA sockB idA idB) ⟨idA, emailA, roleA⟩
        ⟨idB, emailB, roleB⟩ emailA emailB sends).conversations,
        m.conversation = c.cid) := by
  have hgetB : aGet (cuAB emailA emailB sockA sockB idA idB) emailB =
      some ⟨sockB, idB⟩ := by
    simp [cuAB, aGet, hne]
  have hgetA : aGet (cuAB emailA emailB sockA sockB idA idB) emailA =
      some ⟨sockA, idA⟩ := by
    simp [cuAB, aGet]
  obtain ⟨hinv, hlen⟩ := runSends_inv idA idB (cuAB emailA emailB sockA sockB idA idB)
    ⟨idA, emailA, roleA⟩ ⟨idB, emailB, roleB⟩ emailA emailB
    ⟨sockA, idA⟩ ⟨sockB, idB⟩ rfl rfl hgetB rfl hgetA rfl sends emptyStore
    (Or.inl ⟨rfl, rfl⟩)
  simp only [runSends]
  refine ⟨?_, hlen, ?_⟩
  · rcases hinv with ⟨hc, _⟩ | ⟨c, hc, _, _, _⟩
    · rw [hc]; simp
    · rw [hc]; simp
  · intro m hm c hc
    rcases hinv with ⟨hcv, hmsg⟩ | ⟨c0, hcv, _, _, hmsg⟩
    · rw [hmsg] at hm
      cases hm
    · rw [hcv] at hc
      have hc0 : c = c0 := by simpa using hc
      rw [hc0]
      exact hmsg m hm

/-- Witness for C2: three sends (A to B, B to A, A to B again) resolve to a
single conversation holding all three messages. -/
theorem conversation_unique_per_pair_witness :
    (("a@x.com" : String) ≠ "b@x.com") ∧
    ((runSends (cuAB "a@x.com" "b@x.com" "sA" "sB" "uA" "uB")
        ⟨"uA", "a@x.com", "user"⟩ ⟨"uB", "b@x.com", "user"⟩ "a@x.com" "b@x.com"
        [(true, "hi"), (false, "yo"), (true, "again")]).conversations.length ≤ 1 ∧
      ([(true, "hi"), (false, "yo"), (true, "again")] ≠
          ([] : List (Bool × String)) →
        (runSends (cuAB "a@x.com" "b@x.com" "sA" "sB" "uA" "uB")
          ⟨"uA", "a@x.com", "user"⟩ ⟨"uB", "b@x.com", "user"⟩ "a@x.com" "b@x.com"
          [(true, "hi"), (false, "yo"), (true, "again")]).conversations.length = 1) ∧
      (∀ m ∈ (runSends (cuAB "a@x.com" "b@x.com" "sA" "sB" "uA" "uB")
          ⟨"uA", "a@x.com", "user"⟩ ⟨"uB", "b@x.com", "user"⟩ "a@x.com" "b@x.com"
          [(true, "hi"), (false, "yo"), (true, "again")]).messages,
        ∀ c ∈ (runSends (cuAB "a@x.com" "b@x.com" "sA" "sB" "uA" "uB")
          ⟨"uA", "a@x.com", "user"⟩ ⟨"uB", "b@x.com", "user"⟩ "a@x.com" "b@x.com"
          [(true, "hi"), (false, "yo"), (true, "again")]).conversations,
          m.conversation = c.cid)) :=
  ⟨by decide,
    conversation_unique_per_pair "uA" "uB" "a@x.com" "b@x.com" "sA" "sB" "user" "user"
      [(true, "hi"), (false, "yo"), (true, "again")] (by decide)⟩

/-- C10: a self-send (recipient resolves to the sender's own user id) runs
the query `$all [senderId, senderId]`, which degenerates to "first
conversation containing the sender"; when such a conversation already
exists — e.g. a two-party conversation with another user — the message is
appended to it and no dedicated self-conversation is created. -/
theorem self_send_joins_existing_conversation
    (dir : List (String × ConnInfo)) (store : Store) (u : Identity)
    (selfEmail content sock : String) (c : Conversation)
    (hself : aGet dir selfEmail = some ⟨sock, u.id⟩)
    (hfind : findConv store.conversations u.id u.id = some c) :
    findConv store.conversations u.id u.id =
      store.conversations.find? (fun x => x.participants.contains u.id) ∧
    (sendMessageP noFail dir store (some u) selfEmail content).store.conversations.map
        (fun x => (x.cid, x.participants)) =
      store.conversations.map (fun x => (x.cid, x.participants)) ∧
    (sendMessageP noFail dir store (some u) selfEmail content).store.messages =
      store.messages ++ [⟨store.nextId, c.cid, u.id, content⟩] ∧
    (sendMessageP noFail dir store (some u) selfEmail content).outcome = .delivered := by
  refine ⟨?_, ?_, ?_, ?_⟩
  · rw [findConv]
    congr 1
    funext x
    rw [Bool.and_self]
  · simp only [sendMessageP, hself, noFail, Bool.false_eq_true, if_false, hfind,
      finishSend]
    exact map_update_lastMessage store.conversations c.cid (some store.nextId)
  · simp [sendMessageP, hself, noFail, hfind, finishSend]
  · simp [sendMessageP, hself, noFail, hfind, finishSend]

/-- Witness for C10: `uA` already has conversation 7 with `uB`; a self-send
lands in conversation 7 and creates nothing new. -/
theorem self_send_joins_existing_conversation_witness :
    (aGet [("a@x.com", ConnInfo.mk "sA" "uA")] "a@x.com" = some ⟨"sA", "uA"⟩ ∧
      findConv [⟨7, ["uA", "uB"], none⟩] "uA" "uA" = some ⟨7, ["uA", "uB"], none⟩) ∧
    (findConv [⟨7, ["uA", "uB"], none⟩] "uA" "uA" =
        [Conversation.mk 7 ["uA", "uB"] none].find?
          (fun x => x.participants.contains "uA") ∧
      (sendMessageP noFail [("a@x.com", ⟨"sA", "uA"⟩)] ⟨[⟨7, ["uA", "uB"], none⟩], [], 10⟩
          (some ⟨"uA", "a@x.com", "user"⟩) "a@x.com" "note").store.conversations.map
          (fun x => (x.cid, x.participants)) =
        [Conversation.mk 7 ["uA", "uB"] none].map (fun x => (x.cid, x.participants)) ∧
      (sendMessageP noFail [("a@x.com", ⟨"sA", "uA"⟩)] ⟨[⟨7, ["uA", "uB"], none⟩], [], 10⟩
          (some ⟨"uA", "a@x.com", "user"⟩) "a@x.com" "note").store.messages =
        [] ++ [⟨10, 7, "uA", "note"⟩] ∧
      (sendMessageP noFail [("a@x.com", ⟨"sA", "uA"⟩)] ⟨[⟨7, ["uA", "uB"], none⟩], [], 10⟩
          (some ⟨"uA", "a@x.com", "user"⟩) "a@x.com" "note").outcome = .delivered) :=
  ⟨⟨by decide, by decide⟩,
    self_send_joins_existing_conversation [("a@x.com", ⟨"sA", "uA"⟩)]
      ⟨[⟨7, ["uA", "uB"], none⟩], [], 10⟩ ⟨"uA", "a@x.com", "user"⟩ "a@x.com" "note" "sA"
      ⟨7, ["uA", "uB"], none⟩ (by decide) (by decide)⟩
